import Mathlib

/-!
# Verification of the EPL 2018–2019 dashboard query/filter/aggregation layer

A shallow embedding of `app.py`: the SQLite-backed query layer (base listing,
per-team goal totals, two-team comparison, existence check, update, verify
lookup), the in-memory view-builder filters (team, referee, free-text search),
the KPI aggregates, and the cached-read / update-and-invalidate state machine.

Conventions of the embedding:
* SQL integer columns are `Nat` (all counters in the dataset are non-negative).
* SQL `SUM` over an empty row set yields `NULL`, modelled as `Option Nat`
  (`none` = NULL), matching SQLite semantics.
* `pandas.Series.str.contains(pat, case := False)` treats `pat` as a Python
  regular expression with `re.IGNORECASE` (the pandas default `regex = True`);
  it is modelled by a regular-expression core (literals, escapes, `.`, `*`,
  `+`, `?`, alternation, grouping) matched by Brzozowski derivatives, with
  unsupported pattern constructs and syntax errors both mapped to `none`
  (Python raises `re.error` there).
* Streamlit's `st.cache_data` memoisation of `read_df` is modelled as an
  association list from query keys to results, threaded through an `AppState`.
-/

set_option autoImplicit false

namespace EPLDash

/-! ## Data model (storage schema, §3 of the spec; `BASE_SQL` join shape) -/

/-- A row of the `Teams` relation. -/
structure Team where
  teamID : Nat
  teamName : String
deriving DecidableEq, Repr

/-- A row of the `Referees` relation. -/
structure Referee where
  refereeID : Nat
  refereeName : String
deriving DecidableEq, Repr

/-- A row of the `Matches` relation (raw, with foreign keys). -/
structure MatchRow where
  matchID : Nat
  matchDate : String
  homeTeamID : Nat
  awayTeamID : Nat
  refereeID : Nat
  FTHG : Nat
  FTAG : Nat
  FTR : String
  HY : Nat
  AY : Nat
  HR : Nat
  AR : Nat
deriving DecidableEq, Repr

/-- The SQLite database: the three relations (`Matches` keeps the SQL table's
capitalised name; `matches` is reserved syntax in Lean). -/
structure DB where
  teams : List Team
  referees : List Referee
  Matches : List MatchRow
deriving DecidableEq, Repr

/-- A joined row as produced by `BASE_SQL` / `verify_sql`: match columns with
team and referee names attached. -/
structure ViewRow where
  matchID : Nat
  matchDate : String
  homeTeam : String
  awayTeam : String
  FTHG : Nat
  FTAG : Nat
  FTR : String
  refereeName : String
  HY : Nat
  AY : Nat
  HR : Nat
  AR : Nat
deriving DecidableEq, Repr

/-- Build the joined view row for a match and its resolved team/referee rows
(the SELECT list of `BASE_SQL` / `verify_sql`). -/
def mkViewRow (m : MatchRow) (t1 t2 : Team) (r : Referee) : ViewRow :=
  { matchID := m.matchID
    matchDate := m.matchDate
    homeTeam := t1.teamName
    awayTeam := t2.teamName
    FTHG := m.FTHG
    FTAG := m.FTAG
    FTR := m.FTR
    refereeName := r.refereeName
    HY := m.HY
    AY := m.AY
    HR := m.HR
    AR := m.AR }

/-- All join partners of one match: `JOIN Teams t1 ON m.HomeTeamID = t1.TeamID
JOIN Teams t2 ON m.AwayTeamID = t2.TeamID JOIN Referees r ON m.RefereeID =
r.RefereeID` (inner joins: a dangling foreign key yields no row). -/
def joinRow (db : DB) (m : MatchRow) : List ViewRow :=
  (db.teams.filter (fun t1 => t1.teamID == m.homeTeamID)).flatMap fun t1 =>
    (db.teams.filter (fun t2 => t2.teamID == m.awayTeamID)).flatMap fun t2 =>
      (db.referees.filter (fun r => r.refereeID == m.refereeID)).map fun r =>
        mkViewRow m t1 t2 r

/-! ## Result-code maps (`FTR_TO_TEXT` / `TEXT_TO_FTR`, app.py lines 97–98) -/

/-- `FTR_TO_TEXT = {"H": "Home Win", "D": "Draw", "A": "Away Win"}`. -/
def FTR_TO_TEXT : List (String × String) :=
  [("H", "Home Win"), ("D", "Draw"), ("A", "Away Win")]

/-- `TEXT_TO_FTR = {"Home Win": "H", "Draw": "D", "Away Win": "A"}`. -/
def TEXT_TO_FTR : List (String × String) :=
  [("Home Win", "H"), ("Draw", "D"), ("Away Win", "A")]

/-- Python dict subscript `d[k]`: `some` the value, `none` models `KeyError`. -/
def dictGet (d : List (String × String)) (k : String) : Option String :=
  d.lookup k

/-- The options offered by the CRUD tab's result selectbox (app.py line 358). -/
def ftrLabelOptions : List String := ["Home Win", "Draw", "Away Win"]

/-! ## KPI metrics (app.py lines 227–231) -/

/-- Round a rational to two decimal places, idealising Python's
`round(x, 2)` on the exact quotient (Mathlib's `round` on `q * 100`). -/
def round2 (q : ℚ) : ℚ := (round (q * 100) : ℤ) / 100

/-- The five KPI values shown above the tabs. -/
structure KPIs where
  total_matches : Nat
  unique_teams : Nat
  total_goals : Nat
  total_cards : Nat
  avg_goals : ℚ
deriving DecidableEq, Repr

/-- The KPI block computed from a row set exactly as app.py lines 227–231:
`len(df)`, `len(set(home) ∪ set(away))`, `sum(FTHG+FTAG)`,
`sum(HY+AY+HR+AR)`, and the guarded average (`0.0` when no matches). -/
def computeKPIs (rows : List ViewRow) : KPIs :=
  let total_matches := rows.length
  let total_goals := (rows.map (fun r => r.FTHG + r.FTAG)).sum
  { total_matches := total_matches
    unique_teams := ((rows.map (fun r => r.homeTeam)) ++
      (rows.map (fun r => r.awayTeam))).dedup.length
    total_goals := total_goals
    total_cards := (rows.map (fun r => r.HY + r.AY + r.HR + r.AR)).sum
    avg_goals := if total_matches ≠ 0 then
        round2 ((total_goals : ℚ) / (total_matches : ℚ))
      else 0 }

/-! ## Sidebar filters (app.py lines 180–186) -/

/-- `if selected_team: df_view = df_view[(home == t) | (away == t)]`.
`none` models Python `None`; the empty string is falsy in Python, so it is
also a no-op. -/
def applyTeamFilter (rows : List ViewRow) (sel : Option String) : List ViewRow :=
  match sel with
  | none => rows
  | some t =>
      if t = "" then rows
      else rows.filter (fun r => r.homeTeam == t || r.awayTeam == t)

/-- `if selected_ref: df_view = df_view[ref == r]`. -/
def applyRefereeFilter (rows : List ViewRow) (sel : Option String) : List ViewRow :=
  match sel with
  | none => rows
  | some rf =>
      if rf = "" then rows
      else rows.filter (fun r => r.refereeName == rf)

/-- `df_view`: the working set after the sidebar team/referee filters
(app.py lines 180–186). -/
def dfView (dfAll : List ViewRow) (selTeam selRef : Option String) : List ViewRow :=
  applyRefereeFilter (applyTeamFilter dfAll selTeam) selRef

/-! ## The Browse-tab search (app.py lines 263–268)

`df_show[...str.contains(search, case=False)...]`: pandas keeps the default
`regex=True`, so the search text is a Python regular expression matched with
`re.IGNORECASE` via `re.search`. We model the regex core (literals, escaped
metacharacters, `.`, `*`, `+`, `?`, lazy quantifier markers, alternation and
grouping); constructs outside this core (`[...]`, `{m,n}`, anchors, `\d`-style
class escapes, `(?...)` extensions) and malformed patterns both map to `none`,
as Python raises `re.error` or is otherwise outside the modelled subset. -/

/-- Regular expressions. `fail` denotes the empty language (it arises from
derivatives, never from parsing). -/
inductive Re where
  | fail : Re
  | eps : Re
  | lit : Char → Re
  | dot : Re
  | seq : Re → Re → Re
  | alt : Re → Re → Re
  | star : Re → Re
deriving DecidableEq, Repr

/-- Case-insensitive character equality (`re.IGNORECASE`). -/
def ciEq (c d : Char) : Bool := c.toLower == d.toLower

/-- Does the regex accept the empty string? -/
def nullable : Re → Bool
  | .fail => false
  | .eps => true
  | .lit _ => false
  | .dot => false
  | .seq a b => nullable a && nullable b
  | .alt a b => nullable a || nullable b
  | .star _ => true

/-- Brzozowski derivative with case-insensitive literals; `.` matches any
character except a newline (no `re.DOTALL`). -/
def deriv : Re → Char → Re
  | .fail, _ => .fail
  | .eps, _ => .fail
  | .lit c, d => if ciEq c d then .eps else .fail
  | .dot, d => if d == '\n' then .fail else .eps
  | .seq a b, d =>
      if nullable a then .alt (.seq (deriv a d) b) (deriv b d)
      else .seq (deriv a d) b
  | .alt a b, d => .alt (deriv a d) (deriv b d)
  | .star a, d => .seq (deriv a d) (.star a)

/-- Does `r` match some prefix of the character list? -/
def matchesPrefix (r : Re) : List Char → Bool
  | [] => nullable r
  | c :: cs => nullable r || matchesPrefix (deriv r c) cs

/-- `re.search`: does `r` match somewhere inside the character list? -/
def searchRe (r : Re) : List Char → Bool
  | [] => nullable r
  | c :: cs => matchesPrefix r (c :: cs) || searchRe r cs

/-- Python regex metacharacters. -/
def isMeta (c : Char) : Bool :=
  c == '.' || c == '^' || c == '$' || c == '*' || c == '+' || c == '?' ||
  c == '\x7b' || c == '\x7d' || c == '[' || c == ']' || c == '\\' ||
  c == '|' || c == '(' || c == ')'

/-- Quantifier characters. -/
def isQuant (c : Char) : Bool := c == '*' || c == '+' || c == '?'

/-- Is the next character a quantifier (`a**` is a `multiple repeat` error)? -/
def quantAhead : List Char → Bool
  | c :: _ => isQuant c
  | [] => false

/-- Apply an optional postfix quantifier to a parsed atom, accepting a lazy
`?` marker after it and rejecting a stacked quantifier. -/
def applyQuants (r : Re) : List Char → Option (Re × List Char)
  | c :: rest =>
      if isQuant c then
        let r' := if c == '*' then Re.star r
          else if c == '+' then Re.seq r (Re.star r)
          else Re.alt r Re.eps
        match rest with
        | '?' :: rest2 => if quantAhead rest2 then none else some (r', rest2)
        | _ => if quantAhead rest then none else some (r', rest)
      else some (r, c :: rest)
  | [] => some (r, [])

/-- Sequence a list of parsed atoms. -/
def combineSeq (rs : List Re) : Re := rs.foldr Re.seq Re.eps

mutual

/-- Parse one atom: a group, an escaped non-alphanumeric character, `.`, or a
plain literal character. Fuel bounds the recursion depth. -/
def parseAtom : Nat → List Char → Option (Re × List Char)
  | 0, _ => none
  | _ + 1, [] => none
  | fuel + 1, c :: cs =>
      if c == '(' then
        match parseAlt fuel cs with
        | some (r, d :: rest) => if d == ')' then some (r, rest) else none
        | _ => none
      else if c == '\\' then
        match cs with
        | [] => none
        | d :: rest => if d.isAlphanum then none else some (.lit d, rest)
      else if c == '.' then some (.dot, cs)
      else if isMeta c then none
      else some (.lit c, cs)

/-- Parse a quantified-atom sequence, stopping at `)`/`|` or the end. -/
def parseSeqList : Nat → List Char → Option (List Re × List Char)
  | 0, _ => none
  | _ + 1, [] => some ([], [])
  | fuel + 1, c :: cs =>
      if c == ')' || c == '|' then some ([], c :: cs)
      else
        match parseAtom fuel (c :: cs) with
        | none => none
        | some (r, rest) =>
            match applyQuants r rest with
            | none => none
            | some (r2, rest2) =>
                match parseSeqList fuel rest2 with
                | none => none
                | some (rs, rest3) => some (r2 :: rs, rest3)

/-- Parse an alternation of sequences. -/
def parseAlt : Nat → List Char → Option (Re × List Char)
  | 0, _ => none
  | fuel + 1, s =>
      match parseSeqList fuel s with
      | none => none
      | some (rs, rest) =>
          match rest with
          | '|' :: rest2 =>
              match parseAlt fuel rest2 with
              | none => none
              | some (r2, rest3) => some (.alt (combineSeq rs) r2, rest3)
          | _ => some (combineSeq rs, rest)

end

/-- Compile a search text to a regex: the whole text must parse. -/
def parseRe (pat : String) : Option Re :=
  match parseAlt (3 * pat.length + 3) pat.toList with
  | some (r, []) => some r
  | _ => none

/-- One row passes the search when the regex matches inside the home-team,
away-team or referee name (the three `str.contains` columns, `|`-combined). -/
def rowMatchesSearch (r : Re) (row : ViewRow) : Bool :=
  searchRe r row.homeTeam.toList || searchRe r row.awayTeam.toList ||
    searchRe r row.refereeName.toList

/-- The Browse-tab search filter (app.py lines 263–268): `if search:` makes the
empty text a no-op; otherwise rows are kept when the text, as a
case-insensitive regex, matches one of the three name columns. `none` models
the `re.error` raised on a malformed or unsupported pattern. -/
def applySearch (rows : List ViewRow) (text : String) : Option (List ViewRow) :=
  if text = "" then some rows
  else
    match parseRe text with
    | none => none
    | some r => some (rows.filter (rowMatchesSearch r))

/-! ## The search as the spec words it (case-insensitive substring) -/

/-- Is `pat` a case-insensitive prefix of the second list? -/
def isPrefixCI : List Char → List Char → Bool
  | [], _ => true
  | _ :: _, [] => false
  | c :: cs, d :: ds => ciEq c d && isPrefixCI cs ds

/-- Does the second list contain `pat` as a case-insensitive substring? -/
def containsCI (pat : List Char) : List Char → Bool
  | [] => isPrefixCI pat []
  | d :: ds => isPrefixCI pat (d :: ds) || containsCI pat ds

/-- `containsCIStr s pat`: `s` contains `pat` case-insensitively. -/
def containsCIStr (s pat : String) : Bool := containsCI pat.toList s.toList

/-- The search filter exactly as the spec describes it: keep rows whose
home-team, away-team or referee name contains the text as a case-insensitive
substring; empty text is the identity. (Spec-side definition, to be compared
with `applySearch`.) -/
def specSearchFilter (rows : List ViewRow) (text : String) : List ViewRow :=
  if text = "" then rows
  else rows.filter (fun row =>
    containsCIStr row.homeTeam text || containsCIStr row.awayTeam text ||
      containsCIStr row.refereeName text)

/-! ## The remaining SQL queries -/

/-- SQL `SUM` over a column: `NULL` (`none`) when no rows were selected,
otherwise the sum (SQLite semantics). -/
def sqlSum (l : List Nat) : Option Nat := if l.isEmpty then none else some l.sum

/-- The `FROM Matches m JOIN Teams t1 ON m.HomeTeamID = t1.TeamID JOIN Teams
t2 ON m.AwayTeamID = t2.TeamID` join of `team_stats` (no referee join). -/
def statsJoin (db : DB) : List (MatchRow × Team × Team) :=
  db.Matches.flatMap fun m =>
    (db.teams.filter (fun t1 => t1.teamID == m.homeTeamID)).flatMap fun t1 =>
      (db.teams.filter (fun t2 => t2.teamID == m.awayTeamID)).map fun t2 =>
        (m, t1, t2)

/-- The single aggregate row produced by the `team_stats` query. -/
structure TeamStatsRow where
  Matches : Nat
  GoalsFor : Option Nat
  GoalsAgainst : Option Nat
deriving DecidableEq, Repr

/-- `team_stats(team)` (app.py lines 319–330): one aggregate row with
`COUNT(*)`, `SUM(CASE WHEN t1.TeamName = ? THEN m.FTHG ELSE m.FTAG END)` and
the complementary sum, over matches where the team is home or away. An
aggregate query without `GROUP BY` always yields exactly one row, so
`.iloc[0]` cannot fail. -/
def team_stats (db : DB) (team : String) : TeamStatsRow :=
  let sel := (statsJoin db).filter fun p =>
    p.2.1.teamName == team || p.2.2.teamName == team
  { Matches := sel.length
    GoalsFor := sqlSum (sel.map fun p =>
      if p.2.1.teamName == team then p.1.FTHG else p.1.FTAG)
    GoalsAgainst := sqlSum (sel.map fun p =>
      if p.2.1.teamName == team then p.1.FTAG else p.1.FTHG) }

/-- The `FROM Matches m JOIN Teams t ON m.HomeTeamID = t.TeamID` join of
`GOALS_SQL`: each match with its home-team row. -/
def homeJoin (db : DB) : List (MatchRow × Team) :=
  db.Matches.flatMap fun m =>
    (db.teams.filter (fun t => t.teamID == m.homeTeamID)).map fun t => (m, t)

/-- The distinct `t.TeamName` group keys of `GOALS_SQL`. -/
def goalGroupNames (db : DB) : List String :=
  ((homeJoin db).map (fun p => p.2.teamName)).dedup

/-- The order of `ORDER BY TotalGoals DESC`: `a` may precede `b` when `a`'s
total is at least `b`'s (SQL leaves tie order unspecified; sorting fixes one). -/
def goalsDescOrder (a b : String × Nat) : Prop := b.2 ≤ a.2

instance : DecidableRel goalsDescOrder := fun a b => Nat.decLe b.2 a.2

instance : IsTotal (String × Nat) goalsDescOrder :=
  ⟨fun a b => Nat.le_total b.2 a.2⟩

instance : IsTrans (String × Nat) goalsDescOrder :=
  ⟨fun _ _ _ hab hbc => Nat.le_trans hbc hab⟩

/-- Sort descending by the `Nat` component (`ORDER BY ... DESC`). -/
def sortDescNat (l : List (String × Nat)) : List (String × Nat) :=
  l.insertionSort goalsDescOrder

/-- `GOALS_SQL` (app.py lines 287–294): group the home-join by team name, sum
`FTHG + FTAG` within each group, order descending by the total. -/
def teamGoalTotals (db : DB) : List (String × Nat) :=
  sortDescNat ((goalGroupNames db).map fun n =>
    (n, (((homeJoin db).filter (fun p => p.2.teamName == n)).map
      (fun p => p.1.FTHG + p.1.FTAG)).sum))

/-- Insert into a list kept in descending order of `matchDate`
(`ORDER BY m.MatchDate DESC`, SQLite binary text comparison). -/
def insertDateDesc (v : ViewRow) : List ViewRow → List ViewRow
  | [] => [v]
  | w :: ws =>
      if decide (w.matchDate < v.matchDate) then v :: w :: ws
      else w :: insertDateDesc v ws

/-- `BASE_SQL` (app.py lines 134–148): the full join, ordered by date
descending. -/
def baseRows (db : DB) : List ViewRow :=
  (db.Matches.flatMap (joinRow db)).foldr insertDateDesc []

/-- `verify_sql` (app.py lines 386–396): the joined rows of one match id. -/
def verifyRows (db : DB) (id : Nat) : List ViewRow :=
  (db.Matches.filter (fun m => m.matchID == id)).flatMap (joinRow db)

/-- `MatchByID`: the (first) joined row for an id, `none` when there is none
(`df_updated.empty`). -/
def matchById (db : DB) (id : Nat) : Option ViewRow := (verifyRows db id).head?

/-- `exists_sql` (app.py line 364): `SELECT 1 FROM Matches WHERE MatchID = ?
LIMIT 1` — a list of `1` literals, truncated to one row. -/
def existsRows (db : DB) (id : Nat) : List Nat :=
  ((db.Matches.filter (fun m => m.matchID == id)).map fun _ => 1).take 1

/-- `UPDATE Matches SET FTR = ? WHERE MatchID = ?` (app.py lines 370–373):
rewrite `FTR` on every matching row, touch nothing else. -/
def updateMatches (db : DB) (id : Nat) (code : String) : DB :=
  { db with Matches := db.Matches.map fun m =>
      if m.matchID == id then { m with FTR := code } else m }

/-- The affected-row count (`cur.rowcount`) of that `UPDATE`. -/
def updateRowcount (db : DB) (id : Nat) : Nat :=
  (db.Matches.filter (fun m => m.matchID == id)).length

/-! ## Cached reads and the update handler (app.py lines 109–119, 362–381) -/

/-- A cache key: one `read_df(sql, params)` call site with its parameters
(`st.cache_data` memoises on exactly this pair). -/
inductive Query where
  | base : Query
  | goals : Query
  | existsMatch (id : Nat) : Query
  | verify (id : Nat) : Query
  | stats (team : String) : Query
deriving DecidableEq, Repr

/-- The result shape of each query kind. -/
inductive QueryResult where
  | rows (l : List ViewRow) : QueryResult
  | goalRows (l : List (String × Nat)) : QueryResult
  | unitRows (l : List Nat) : QueryResult
  | statsRows (l : List TeamStatsRow) : QueryResult
deriving DecidableEq, Repr

/-- Evaluate a query against the current database (an uncached `read_df`). -/
def evalQuery (q : Query) (db : DB) : QueryResult :=
  match q with
  | .base => .rows (baseRows db)
  | .goals => .goalRows (teamGoalTotals db)
  | .existsMatch id => .unitRows (existsRows db id)
  | .verify id => .rows (verifyRows db id)
  | .stats team => .statsRows [team_stats db team]

/-- `df.empty` on a query result. -/
def resultEmpty : QueryResult → Bool
  | .rows l => l.isEmpty
  | .goalRows l => l.isEmpty
  | .unitRows l => l.isEmpty
  | .statsRows l => l.isEmpty

/-- The process state: the SQLite database plus the `st.cache_data`
memoisation table for `read_df`. -/
structure AppState where
  db : DB
  cache : List (Query × QueryResult)
deriving DecidableEq, Repr

/-- First cached result for a key, if any. -/
def cacheFind (q : Query) : List (Query × QueryResult) → Option QueryResult
  | [] => none
  | (k, v) :: rest => if k == q then some v else cacheFind q rest

/-- `read_df` (app.py lines 109–112): serve from the cache when the key is
present, otherwise query the database and memoise the result. -/
def read_df (q : Query) (s : AppState) : QueryResult × AppState :=
  match cacheFind q s.cache with
  | some v => (v, s)
  | none =>
      let v := evalQuery q s.db
      (v, { s with cache := (q, v) :: s.cache })

/-- The three user-visible outcomes of the Update-Match-Result button. -/
inductive UpdateOutcome where
  | notFound : UpdateOutcome
  | zeroRowsWarning : UpdateOutcome
  | success : UpdateOutcome
deriving DecidableEq, Repr

/-- The Update-Match-Result button handler (app.py lines 362–381): existence
check via the cached `read_df`; on empty result report not-found without
touching the database; otherwise run the `UPDATE`, and on a non-zero row
count clear the whole cache (`st.cache_data.clear()`) and report success. -/
def updateHandler (s : AppState) (id : Nat) (code : String) :
    UpdateOutcome × AppState :=
  let res := read_df (.existsMatch id) s
  if resultEmpty res.1 then (.notFound, res.2)
  else
    let rc := updateRowcount res.2.db id
    let db2 := updateMatches res.2.db id code
    if rc == 0 then (.zeroRowsWarning, { res.2 with db := db2 })
    else (.success, { db := db2, cache := [] })

/-- A cache entry is consistent when it equals a fresh evaluation against the
current database. -/
def cacheConsistent (s : AppState) : Prop :=
  ∀ q v, (q, v) ∈ s.cache → v = evalQuery q s.db

/-- Issue a sequence of reads, threading the cache. -/
def readSeq (qs : List Query) (s : AppState) : List QueryResult × AppState :=
  match qs with
  | [] => ([], s)
  | q :: rest =>
      let r := read_df q s
      let rr := readSeq rest r.2
      (r.1 :: rr.1, rr.2)

/-! ## Spec-side comparison definitions -/

/-- The per-team total the spec's claim describes for `TeamGoalTotals`: only
the team's own home-side goals (`FTHG`), over matches where it is the home
side. (Spec-side definition, to be compared with `teamGoalTotals`.) -/
def homeSideGoalsOnly (db : DB) (name : String) : Nat :=
  (((homeJoin db).filter (fun p => p.2.teamName == name)).map
    (fun p => p.1.FTHG)).sum

/-- The per-team total `GOALS_SQL` actually computes: both sides' goals
(`FTHG + FTAG`) over matches where the team is the home side. -/
def homeMatchTotalGoals (db : DB) (name : String) : Nat :=
  (((homeJoin db).filter (fun p => p.2.teamName == name)).map
    (fun p => p.1.FTHG + p.1.FTAG)).sum

/-! ## Concrete fixtures (used by witnesses and counterexamples) -/

/-- Fixture team: Arsenal, id 1. -/
def exHome : Team := ⟨1, "Arsenal"⟩

/-- Fixture team: Chelsea, id 2. -/
def exAway : Team := ⟨2, "Chelsea"⟩

/-- Fixture referee. -/
def exRef : Referee := ⟨1, "Mike Dean"⟩

/-- Fixture match: id 7, Arsenal 2–0 Chelsea, result `H`, three cards. -/
def exMatch : MatchRow := ⟨7, "2019-01-01", 1, 2, 1, 2, 0, "H", 1, 2, 0, 0⟩

/-- Fixture database with the single match `exMatch`. -/
def exDB : DB := ⟨[exHome, exAway], [exRef], [exMatch]⟩

/-- The joined view row of `exMatch`. -/
def exRow : ViewRow := mkViewRow exMatch exHome exAway exRef

/-- Fixture match for the goal-totals claim: Arsenal 1–2 Chelsea at home. -/
def exMatch2 : MatchRow := ⟨8, "2019-01-02", 1, 2, 1, 1, 2, "A", 0, 0, 0, 0⟩

/-- Fixture database containing only the 1–2 home defeat. -/
def exDB2 : DB := ⟨[exHome, exAway], [exRef], [exMatch2]⟩

/-- A second joined view row with a different referee (`Jon Moss`). -/
def exRowB : ViewRow :=
  ⟨9, "2019-01-03", "Everton", "Fulham", 1, 1, "D", "Jon Moss", 0, 0, 0, 0⟩

/-- The regex that matches exactly a literal character sequence. -/
def litRe : List Char → Re
  | [] => .eps
  | c :: cs => .seq (.lit c) (litRe cs)

/-! # Theorems -/

/-- The empty-language regex matches no prefix. -/
theorem matchesPrefix_fail (s : List Char) : matchesPrefix .fail s = false := by
  induction s with
  | nil => rfl
  | cons c cs ih => simp [matchesPrefix, nullable, deriv, ih]

/-- Prefix matching distributes over alternation. -/
theorem matchesPrefix_alt (a b : Re) (s : List Char) :
    matchesPrefix (.alt a b) s = (matchesPrefix a s || matchesPrefix b s) := by
  induction s generalizing a b with
  | nil => rfl
  | cons c cs ih =>
      show ((nullable a || nullable b) ||
          matchesPrefix (.alt (deriv a c) (deriv b c)) cs) = _
      rw [ih]
      show _ = ((nullable a || matchesPrefix (deriv a c) cs) ||
          (nullable b || matchesPrefix (deriv b c) cs))
      cases nullable a <;> cases nullable b <;>
        cases matchesPrefix (deriv a c) cs <;>
        cases matchesPrefix (deriv b c) cs <;> rfl

/-- A sequence headed by the empty language matches no prefix. -/
theorem matchesPrefix_seq_fail (r : Re) (s : List Char) :
    matchesPrefix (.seq .fail r) s = false := by
  induction s with
  | nil => rfl
  | cons c cs ih => simp [matchesPrefix, nullable, deriv, ih]

/-- A sequence headed by the empty string behaves as its tail. -/
theorem matchesPrefix_seq_eps (r : Re) (s : List Char) :
    matchesPrefix (.seq .eps r) s = matchesPrefix r s := by
  cases s with
  | nil => simp [matchesPrefix, nullable]
  | cons c cs =>
      show ((true && nullable r) || matchesPrefix
          (.alt (.seq (deriv .eps c) r) (deriv r c)) cs) = _
      rw [matchesPrefix_alt]
      simp only [deriv]
      rw [matchesPrefix_seq_fail]
      simp [matchesPrefix]

/-- A literal-sequence regex matches a prefix exactly when the character list
is a case-insensitive prefix. -/
theorem matchesPrefix_litRe (pat : List Char) :
    ∀ s : List Char, matchesPrefix (litRe pat) s = isPrefixCI pat s := by
  induction pat with
  | nil =>
      intro s
      cases s <;> simp [litRe, matchesPrefix, nullable, isPrefixCI]
  | cons c cs ih =>
      intro s
      cases s with
      | nil => simp [litRe, matchesPrefix, nullable, isPrefixCI]
      | cons d ds =>
          show ((false && _) || matchesPrefix
              (.seq (if ciEq c d then .eps else .fail) (litRe cs)) ds) = _
          by_cases hcd : ciEq c d = true
          · rw [if_pos hcd, matchesPrefix_seq_eps, ih ds]
            simp [isPrefixCI, hcd]
          · rw [if_neg hcd, matchesPrefix_seq_fail]
            simp [isPrefixCI, Bool.eq_false_iff.mpr hcd]

/-- Nullability of a literal-sequence regex. -/
theorem nullable_litRe (pat : List Char) :
    nullable (litRe pat) = isPrefixCI pat [] := by
  cases pat <;> rfl

/-- Searching a literal-sequence regex is case-insensitive substring
containment. -/
theorem searchRe_litRe (pat : List Char) :
    ∀ s : List Char, searchRe (litRe pat) s = containsCI pat s := by
  intro s
  induction s with
  | nil => simp [searchRe, containsCI, nullable_litRe]
  | cons c cs ih => simp [searchRe, containsCI, matchesPrefix_litRe, ih]

/-- A non-metacharacter differs from every metacharacter. -/
theorem plain_char_ne (c x : Char) (hc : isMeta c = false)
    (hx : isMeta x = true) : (c == x) = false := by
  cases hb : (c == x) with
  | false => rfl
  | true =>
      obtain rfl := eq_of_beq hb
      rw [hc] at hx
      cases hx

/-- A non-metacharacter is not a quantifier. -/
theorem plain_not_quant (c : Char) (hc : isMeta c = false) :
    isQuant c = false := by
  simp [isQuant, plain_char_ne c '*' hc (by decide),
    plain_char_ne c '+' hc (by decide), plain_char_ne c '?' hc (by decide)]

/-- No quantifier follows in a metacharacter-free tail. -/
theorem quantAhead_plain (cs : List Char) (h : ∀ c ∈ cs, isMeta c = false) :
    quantAhead cs = false := by
  cases cs with
  | nil => rfl
  | cons c _ => exact plain_not_quant c (h c (List.mem_cons_self _ _))

/-- `applyQuants` is the identity when no quantifier follows. -/
theorem applyQuants_plain (r : Re) (cs : List Char)
    (h : quantAhead cs = false) : applyQuants r cs = some (r, cs) := by
  cases cs with
  | nil => rfl
  | cons c rest =>
      have : isQuant c = false := h
      simp [applyQuants, this]

/-- Parsing one plain character produces its literal atom. -/
theorem parseAtom_plain (fuel : Nat) (c : Char) (cs : List Char)
    (hc : isMeta c = false) :
    parseAtom (fuel + 1) (c :: cs) = some (.lit c, cs) := by
  simp [parseAtom, plain_char_ne c '(' hc (by decide),
    plain_char_ne c '\\' hc (by decide), plain_char_ne c '.' hc (by decide),
    hc]

/-- A metacharacter-free text parses as the list of its literal atoms. -/
theorem parseSeqList_plain (cs : List Char) :
    ∀ fuel : Nat, cs.length < fuel → (∀ c ∈ cs, isMeta c = false) →
      parseSeqList fuel cs = some (cs.map Re.lit, []) := by
  induction cs with
  | nil =>
      intro fuel hf _
      cases fuel with
      | zero => omega
      | succ f => rfl
  | cons c cs ih =>
      intro fuel hf hplain
      have hc : isMeta c = false := hplain c (List.mem_cons_self _ _)
      have hcs : ∀ x ∈ cs, isMeta x = false :=
        fun x hx => hplain x (List.mem_cons_of_mem _ hx)
      cases fuel with
      | zero => omega
      | succ f =>
          cases f with
          | zero => simp at hf
          | succ f2 =>
              have hstep : parseSeqList (f2 + 1 + 1) (c :: cs) =
                  match parseAtom (f2 + 1) (c :: cs) with
                  | none => none
                  | some (r, rest) =>
                      match applyQuants r rest with
                      | none => none
                      | some (r2, rest2) =>
                          match parseSeqList (f2 + 1) rest2 with
                          | none => none
                          | some (rs, rest3) => some (r2 :: rs, rest3) := by
                rw [parseSeqList]
                rw [if_neg]
                simp [plain_char_ne c ')' hc (by decide),
                  plain_char_ne c '|' hc (by decide)]
              rw [hstep, parseAtom_plain _ _ _ hc]
              dsimp only
              rw [applyQuants_plain _ _ (quantAhead_plain cs hcs)]
              dsimp only
              rw [ih (f2 + 1) (by simpa using hf) hcs]
              rfl

/-- A metacharacter-free text parses, at the alternation level, as the
literal-sequence regex of its characters, consuming all input. -/
theorem parseAlt_plain (cs : List Char) (fuel : Nat) (hf : cs.length + 1 < fuel)
    (hplain : ∀ c ∈ cs, isMeta c = false) :
    parseAlt fuel cs = some (litRe cs, []) := by
  cases fuel with
  | zero => omega
  | succ f =>
      rw [parseAlt, parseSeqList_plain cs f (by omega) hplain]
      have hlit : ∀ l : List Char, combineSeq (l.map Re.lit) = litRe l := by
        intro l
        induction l with
        | nil => rfl
        | cons x xs ihx => simp [combineSeq, litRe] at ihx ⊢; exact ihx
      simp [hlit]

/-- A metacharacter-free search text compiles to its literal-sequence
regex. -/
theorem parseRe_plain (pat : String)
    (hplain : ∀ c ∈ pat.toList, isMeta c = false) :
    parseRe pat = some (litRe pat.toList) := by
  have hlen : pat.length = pat.toList.length := rfl
  rw [parseRe, parseAlt_plain pat.toList (3 * pat.length + 3)
    (by rw [hlen]; omega) hplain]

/-- C7 counterexample: with search text `.` the code keeps the fixture row —
pandas treats the text as a regular expression, where `.` matches any
character — although none of its three name columns contains `.` as a
substring, so the spec-side substring filter removes it. -/
theorem C7_counterexample :
    applySearch [exRow] "." = some [exRow] ∧
    specSearchFilter [exRow] "." = [] := by decide

/-- C7 (amended): the search text is interpreted as a case-insensitive
Python regular expression; whenever it contains no regex metacharacter, the
filter keeps exactly the rows whose home-team, away-team or referee name
contains the text as a case-insensitive substring, and the empty text is the
identity. -/
theorem C7_search_plain_substring (rows : List ViewRow) (text : String)
    (hplain : ∀ c ∈ text.toList, isMeta c = false) :
    applySearch rows text = some (specSearchFilter rows text) := by
  unfold applySearch specSearchFilter
  by_cases he : text = ""
  · simp [he]
  · rw [if_neg he, if_neg he, parseRe_plain text hplain]
    dsimp only
    congr 1
    apply List.filter_congr
    intro row _
    simp [rowMatchesSearch, searchRe_litRe, containsCIStr]

/-- C7 witness: the plain search text `arsenal` filters the fixture rows by
case-insensitive substring containment. -/
theorem C7_search_plain_substring_witness :
    applySearch [exRow, exRowB] "arsenal" =
      some (specSearchFilter [exRow, exRowB] "arsenal") :=
  C7_search_plain_substring [exRow, exRowB] "arsenal" (by decide)

/-- C1 counterexample: with no sidebar filter and search text `moss`, the KPI
block — computed from `df_view`, before the search — reports 2 matches, while
the searched view contains a single row whose recomputed match count is 1:
the KPIs reflect a set strictly larger than the searched, filtered view. -/
theorem C1_counterexample :
    (computeKPIs (dfView [exRow, exRowB] none none)).total_matches = 2 ∧
    applySearch (dfView [exRow, exRowB] none none) "moss" = some [exRowB] ∧
    (computeKPIs [exRowB]).total_matches = 1 := by decide

/-- C1 (amended): the KPI block is computed from the team/referee-filtered
set only; the search applies afterwards, to the Browse table. The searched
view is always a subset of the KPI set, so the match, goal and card counts of
the searched view never exceed the displayed KPIs, and they coincide when
the search text is empty. -/
theorem C1_kpis_prefilter_view (dfAll : List ViewRow)
    (selTeam selRef : Option String) (text : String) (shown : List ViewRow)
    (hs : applySearch (dfView dfAll selTeam selRef) text = some shown) :
    (∀ row ∈ shown, row ∈ dfView dfAll selTeam selRef) ∧
    (computeKPIs shown).total_matches ≤
      (computeKPIs (dfView dfAll selTeam selRef)).total_matches ∧
    (computeKPIs shown).total_goals ≤
      (computeKPIs (dfView dfAll selTeam selRef)).total_goals ∧
    (computeKPIs shown).total_cards ≤
      (computeKPIs (dfView dfAll selTeam selRef)).total_cards ∧
    (text = "" → shown = dfView dfAll selTeam selRef) := by
  unfold applySearch at hs
  by_cases he : text = ""
  · rw [if_pos he] at hs
    obtain rfl := Option.some.inj hs
    exact ⟨fun row h => h, le_refl _, le_refl _, le_refl _, fun _ => rfl⟩
  · rw [if_neg he] at hs
    cases hp : parseRe text with
    | none => rw [hp] at hs; cases hs
    | some r =>
        rw [hp] at hs
        dsimp only at hs
        obtain rfl := Option.some.inj hs
        have hsub : List.Sublist
            ((dfView dfAll selTeam selRef).filter (rowMatchesSearch r))
            (dfView dfAll selTeam selRef) := List.filter_sublist _
        refine ⟨fun row h => hsub.subset h, ?_, ?_, ?_, fun habs => absurd habs he⟩
        · simpa [computeKPIs] using List.length_filter_le _ _
        · have h1 := (hsub.map fun v : ViewRow => v.FTHG + v.FTAG).sum_le_sum
            (fun a _ => Nat.zero_le a)
          simpa [computeKPIs] using h1
        · have h1 := (hsub.map fun v : ViewRow =>
              v.HY + v.AY + v.HR + v.AR).sum_le_sum (fun a _ => Nat.zero_le a)
          simpa [computeKPIs] using h1

/-- C1 witness: the amended statement at the concrete two-row base set with
search text `moss`. -/
theorem C1_kpis_prefilter_view_witness :
    exRowB ∈ dfView [exRow, exRowB] none none ∧
    (computeKPIs [exRowB]).total_matches ≤
      (computeKPIs (dfView [exRow, exRowB] none none)).total_matches := by
  have h := C1_kpis_prefilter_view [exRow, exRowB] none none "moss" [exRowB]
    (by decide)
  exact ⟨h.1 exRowB (by decide), h.2.1⟩

/-- C8: `ComputeKPIs` on an empty row set returns match count 0, team count 0,
total goals 0, total cards 0 and average goals `0.0`; the average comes from
the guarded `if total_matches` branch, so no division at zero cardinality. -/
theorem C8_kpis_empty : computeKPIs [] = ⟨0, 0, 0, 0, 0⟩ := by decide

/-- C9: for each of the three valid result codes, mapping through
`FTR_TO_TEXT` and back through `TEXT_TO_FTR` returns the original code. -/
theorem C9_ftr_roundtrip :
    (dictGet FTR_TO_TEXT "H").bind (dictGet TEXT_TO_FTR) = some "H" ∧
    (dictGet FTR_TO_TEXT "D").bind (dictGet TEXT_TO_FTR) = some "D" ∧
    (dictGet FTR_TO_TEXT "A").bind (dictGet TEXT_TO_FTR) = some "A" := by
  decide

/-- C2 counterexample: for a team absent from every match, `team_stats`
returns the single row `(Matches = 0, GoalsFor = NULL, GoalsAgainst = NULL)` —
SQL `SUM` over no rows is `NULL`, so the goal fields are not zero as the
claim states. -/
theorem C2_counterexample :
    team_stats exDB "NoSuchTeam" = ⟨0, none, none⟩ ∧
    (⟨0, none, none⟩ : TeamStatsRow) ≠ ⟨0, some 0, some 0⟩ := by decide

/-- C2 (amended): for every team name appearing in no match (neither side of
any joined row), `team_stats` still returns — without failing — a single
aggregate row, with `Matches = 0` and `GoalsFor`/`GoalsAgainst` NULL. -/
theorem C2_team_stats_absent (db : DB) (team : String)
    (h : ∀ p ∈ statsJoin db, p.2.1.teamName ≠ team ∧ p.2.2.teamName ≠ team) :
    team_stats db team = ⟨0, none, none⟩ := by
  have hsel : (statsJoin db).filter
      (fun p => p.2.1.teamName == team || p.2.2.teamName == team) = [] := by
    rw [List.filter_eq_nil_iff]
    intro p hp
    simp [(h p hp).1, (h p hp).2]
  simp [team_stats, hsel, sqlSum]

/-- C2 witness: the amended statement holds on the concrete fixture. -/
theorem C2_team_stats_absent_witness :
    team_stats exDB "NoSuchTeam" = ⟨0, none, none⟩ :=
  C2_team_stats_absent exDB "NoSuchTeam" (by decide)

/-- C3 counterexample: in a database whose only match is a 1–2 home defeat,
`teamGoalTotals` reports 3 goals for the home team — `SUM(FTHG + FTAG)`
includes the away side's goals — while the claim's home-side-only reading
gives 1. -/
theorem C3_counterexample :
    teamGoalTotals exDB2 = [("Arsenal", 3)] ∧
    homeSideGoalsOnly exDB2 "Arsenal" = 1 ∧ (3 : Nat) ≠ 1 := by decide

/-- C3 (amended): `teamGoalTotals` groups matches by home team and reports,
per team, the sum of BOTH sides' goals over that team's home matches
(`FTHG + FTAG`, not only the home side's own goals), with rows in descending
order of the total. -/
theorem C3_goal_totals_amended (db : DB) :
    List.Pairwise goalsDescOrder (teamGoalTotals db) ∧
    ∀ p ∈ teamGoalTotals db, p.2 = homeMatchTotalGoals db p.1 := by
  constructor
  · exact List.sorted_insertionSort goalsDescOrder _
  · intro p hp
    have hmem : p ∈ (goalGroupNames db).map fun n =>
        (n, (((homeJoin db).filter (fun q => q.2.teamName == n)).map
          (fun q => q.1.FTHG + q.1.FTAG)).sum) :=
      (List.perm_insertionSort goalsDescOrder _).mem_iff.mp hp
    obtain ⟨n, _, rfl⟩ := List.mem_map.mp hmem
    rfl

/-- C3 witness: the amended per-team total read off a concrete database. -/
theorem C3_goal_totals_amended_witness :
    (("Arsenal", 3) : String × Nat).2 = homeMatchTotalGoals exDB2 "Arsenal" :=
  (C3_goal_totals_amended exDB2).2 ("Arsenal", 3) (by decide)

/-- C10: the code written by the update path comes from looking up one of the
three fixed selectbox labels in `TEXT_TO_FTR`, so it is one of `H`/`D`/`A`,
and the update preserves the all-codes-valid invariant on the table. -/
theorem C10_update_codes_valid (label : String) (hl : label ∈ ftrLabelOptions)
    (code : String) (hc : dictGet TEXT_TO_FTR label = some code)
    (db : DB) (id : Nat)
    (hdb : ∀ m ∈ db.Matches, m.FTR ∈ (["H", "D", "A"] : List String)) :
    code ∈ (["H", "D", "A"] : List String) ∧
    ∀ m ∈ (updateMatches db id code).Matches,
      m.FTR ∈ (["H", "D", "A"] : List String) := by
  have hcode : code ∈ (["H", "D", "A"] : List String) := by
    fin_cases hl <;>
      simp only [show dictGet TEXT_TO_FTR "Home Win" = some "H" from by decide,
        show dictGet TEXT_TO_FTR "Draw" = some "D" from by decide,
        show dictGet TEXT_TO_FTR "Away Win" = some "A" from by decide,
        Option.some.injEq] at hc <;> subst hc <;> decide
  refine ⟨hcode, ?_⟩
  intro m hm
  simp only [updateMatches, List.mem_map] at hm
  obtain ⟨m0, hm0, rfl⟩ := hm
  split
  · simpa using hcode
  · exact hdb m0 hm0

/-- C10 witness: the `Draw` label yields code `D`, and the updated fixture
row carries a valid code. -/
theorem C10_update_codes_valid_witness :
    ("D" : String) ∈ (["H", "D", "A"] : List String) ∧
    ({ exMatch with FTR := "D" } : MatchRow).FTR ∈
      (["H", "D", "A"] : List String) :=
  ⟨(C10_update_codes_valid "Draw" (by decide) "D" (by decide) exDB 7
      (by decide)).1,
   (C10_update_codes_valid "Draw" (by decide) "D" (by decide) exDB 7
      (by decide)).2 { exMatch with FTR := "D" } (by decide)⟩

/-- Filtering the updated `Matches` table on the updated id selects exactly
the updated versions of the originally selected rows (the `UPDATE`'s `SET`
commutes with its `WHERE`). -/
theorem filter_matches_update (l : List MatchRow) (id : Nat) (code : String) :
    (l.map fun m =>
        if m.matchID == id then { m with FTR := code } else m).filter
        (fun m => m.matchID == id) =
      (l.filter (fun m => m.matchID == id)).map
        fun m => { m with FTR := code } := by
  rw [List.filter_map]
  have hcomp : ((fun m : MatchRow => m.matchID == id) ∘ fun m =>
      if m.matchID == id then { m with FTR := code } else m) =
      fun m : MatchRow => m.matchID == id := by
    funext m
    simp only [Function.comp]
    split <;> rfl
  rw [hcomp]
  apply List.map_congr_left
  intro m hm
  exact if_pos (List.mem_filter.mp hm).2

/-- The verify join does not depend on the `Matches` relation beyond its
argument row, so the update leaves the join function unchanged. -/
theorem joinRow_update (db : DB) (id : Nat) (code : String) :
    joinRow (updateMatches db id code) = joinRow db := rfl

/-- Joining a row whose `FTR` was rewritten yields the original joined rows
with their `FTR` rewritten: the join only copies the field through. -/
theorem joinRow_setFTR (db : DB) (m : MatchRow) (code : String) :
    joinRow db { m with FTR := code } =
      (joinRow db m).map fun v => { v with FTR := code } := by
  simp only [joinRow, List.map_flatMap, List.map_map]
  rfl

/-- `verify_sql` after the update returns the pre-update joined rows with
`FTR` replaced by the new code. -/
theorem verifyRows_update (db : DB) (id : Nat) (code : String) :
    verifyRows (updateMatches db id code) id =
      (verifyRows db id).map fun v => { v with FTR := code } := by
  have hm : (updateMatches db id code).Matches = db.Matches.map fun m =>
      if m.matchID == id then { m with FTR := code } else m := rfl
  simp only [verifyRows, joinRow_update, hm, filter_matches_update,
    List.flatMap_map, List.map_flatMap]
  have hfun : (fun m => joinRow db { m with FTR := code }) =
      fun m : MatchRow => (joinRow db m).map fun v => { v with FTR := code } :=
    funext fun m => joinRow_setFTR db m code
  rw [hfun]

/-- C5: updating an existing match's result and re-reading it by id yields
the same row with only `fullTimeResult` changed to the new code — goal
counts, cards, date, names and id are all untouched (`{ m with FTR := code }`
pins every other field to its pre-update value). -/
theorem C5_update_frame (db : DB) (id : Nat) (code : String) (m : ViewRow)
    (h : matchById db id = some m) :
    matchById (updateMatches db id code) id = some { m with FTR := code } := by
  have h2 : (verifyRows db id).head? = some m := h
  simp only [matchById, verifyRows_update, List.head?_map, h2]
  rfl

/-- C5 witness: updating fixture match 7 to `D` and re-reading it returns the
fixture row with only `FTR` changed. -/
theorem C5_update_frame_witness :
    matchById (updateMatches exDB 7 "D") 7 = some { exRow with FTR := "D" } :=
  C5_update_frame exDB 7 "D" exRow (by decide)

/-- A cached value found under a key is an entry of the cache. -/
theorem cacheFind_mem (q : Query) (v : QueryResult) :
    ∀ c : List (Query × QueryResult), cacheFind q c = some v → (q, v) ∈ c
  | [], h => by simp [cacheFind] at h
  | (k, w) :: rest, h => by
      by_cases hk : (k == q) = true
      · have hw : some w = some v := by simpa [cacheFind, hk] using h
        obtain rfl : w = v := Option.some.inj hw
        have hkq : k = q := eq_of_beq hk
        subst hkq
        exact List.mem_cons_self _ _
      · have h2 : cacheFind q rest = some v := by simpa [cacheFind, hk] using h
        exact List.mem_cons_of_mem _ (cacheFind_mem q v rest h2)

/-- C6: for an id that references no match, the button handler's existence
check fires: it reports not-found (never success) and the database is left
unchanged — the `UPDATE` is never reached. -/
theorem C6_update_not_found (s : AppState) (id : Nat) (code : String)
    (hnone : ∀ m ∈ s.db.Matches, m.matchID ≠ id)
    (hcons : cacheConsistent s) :
    (updateHandler s id code).1 = UpdateOutcome.notFound ∧
    (updateHandler s id code).2.db = s.db := by
  have hfil : s.db.Matches.filter (fun m => m.matchID == id) = [] := by
    rw [List.filter_eq_nil_iff]
    intro m hm
    simp [hnone m hm]
  have hex : existsRows s.db id = [] := by simp [existsRows, hfil]
  unfold updateHandler
  cases hcf : cacheFind (Query.existsMatch id) s.cache with
  | none => simp [read_df, hcf, evalQuery, resultEmpty, hex]
  | some v =>
      have hv : v = evalQuery (Query.existsMatch id) s.db :=
        hcons _ _ (cacheFind_mem _ _ _ hcf)
      simp [read_df, hcf, hv, evalQuery, resultEmpty, hex]

/-- C6 witness: updating the nonexistent id 99 on the fixture database
reports not-found and leaves the database unchanged. -/
theorem C6_update_not_found_witness :
    (updateHandler ⟨exDB, []⟩ 99 "H").1 = UpdateOutcome.notFound ∧
    (updateHandler ⟨exDB, []⟩ 99 "H").2.db = exDB :=
  C6_update_not_found ⟨exDB, []⟩ 99 "H" (by decide)
    (by intro q v h; exact absurd h (List.not_mem_nil _))

/-- `read_df` never changes the database (reads are side-effect-free on
storage; only the cache may grow). -/
theorem read_df_db (q : Query) (s : AppState) : (read_df q s).2.db = s.db := by
  unfold read_df
  cases cacheFind q s.cache with
  | none => rfl
  | some v => rfl

/-- From a consistent state, `read_df` returns exactly the fresh evaluation
of the query on the current database, and the state stays consistent. -/
theorem read_df_consistent (q : Query) (s : AppState) (hc : cacheConsistent s) :
    (read_df q s).1 = evalQuery q s.db ∧ cacheConsistent (read_df q s).2 := by
  unfold read_df
  cases hcf : cacheFind q s.cache with
  | none =>
      refine ⟨rfl, ?_⟩
      intro q2 v2 hmem
      rcases List.mem_cons.mp hmem with h | h
      · rw [Prod.mk.injEq] at h
        obtain ⟨rfl, rfl⟩ := h
        rfl
      · exact hc q2 v2 h
  | some v => exact ⟨hc q v (cacheFind_mem q v s.cache hcf), hc⟩

/-- From a consistent state, a whole sequence of reads returns the fresh
evaluations against the (unchanging) current database. -/
theorem readSeq_fresh (qs : List Query) (s : AppState) (hc : cacheConsistent s) :
    (readSeq qs s).1 = qs.map fun q => evalQuery q s.db := by
  induction qs generalizing s with
  | nil => rfl
  | cons q rest ih =>
      show (read_df q s).1 :: (readSeq rest (read_df q s).2).1 = _
      have h1 := read_df_consistent q s hc
      rw [List.map_cons, h1.1, ih _ h1.2, read_df_db]

/-- C4: when the update handler reports success, the cache has been cleared,
so every subsequently issued read returns the fresh post-update value — and
in particular every row the verify query returns for the updated id carries
the new result code; no cached pre-update value can be served. -/
theorem C4_reads_after_update_fresh (s : AppState) (id : Nat) (code : String)
    (s2 : AppState)
    (h : updateHandler s id code = (UpdateOutcome.success, s2)) :
    s2.cache = [] ∧
    (∀ qs : List Query, (readSeq qs s2).1 = qs.map fun q => evalQuery q s2.db) ∧
    ∀ row ∈ verifyRows s2.db id, row.FTR = code := by
  unfold updateHandler at h
  dsimp only at h
  split at h
  · simp at h
  · split at h
    · simp at h
    · rw [Prod.mk.injEq] at h
      obtain ⟨-, rfl⟩ := h
      refine ⟨rfl, ?_, ?_⟩
      · intro qs
        exact readSeq_fresh qs _ fun q v hv => absurd hv (List.not_mem_nil _)
      · intro row hrow
        rw [verifyRows_update] at hrow
        obtain ⟨v, -, rfl⟩ := List.mem_map.mp hrow
        rfl

/-- C4 witness: after successfully updating fixture match 7 to `D`, a
re-issued verify read returns the fresh evaluation, and the updated row
carries the new code. -/
theorem C4_reads_after_update_fresh_witness :
    (readSeq [Query.verify 7] ⟨updateMatches exDB 7 "D", []⟩).1 =
      [Query.verify 7].map
        (fun q => evalQuery q (AppState.mk (updateMatches exDB 7 "D") []).db) ∧
    ({ exRow with FTR := "D" } : ViewRow).FTR = "D" := by
  have h := C4_reads_after_update_fresh ⟨exDB, []⟩ 7 "D"
    ⟨updateMatches exDB 7 "D", []⟩ (by decide)
  exact ⟨h.2.1 [Query.verify 7], h.2.2 _ (by decide)⟩

end EPLDash
